import Mathlib

/-!
Shallow embedding of the `monadic-context` Python library
(src/monadic_context/context.py, src/monadic_context/defer.py,
src/context/pipe.py).

Services stored in a Context are modelled by a type parameter `V`
(Python stores arbitrary values under string keys).  A Python
computation that may raise is modelled as a function into
`Except Err`; the two kinds of `KeyError` the library produces are the
two constructors of `Err`.
-/

namespace MonadicContext

/-- Errors the library can raise while resolving services.
`keyError k` models Python's raw `KeyError(k)` coming out of a dict
lookup (its payload is just the missing key); `missingService k avail`
models the `KeyError` re-raised by the `requires` driver, whose message
is `f"Tag ... not found in context. Available tags: ..."`: it carries both the
missing identity and `list(c._unsafe_map.keys())`. -/
inductive Err where
  | keyError (key : String)
  | missingService (key : String) (available : List String)
deriving DecidableEq, Repr

/-- Does the error report both the missing identity and the list of
identities available in the context?  (Formalisation of the spec's
phrase "report the missing identity and the list of identities
currently available"; only the `requires`-driver error does.) -/
def Err.reportsAvailable : Err → Bool
  | .keyError _ => false
  | .missingService _ _ => true

/-- Python `Tag`: a frozen dataclass holding one string identity `_id`;
equality of Tags is equality of identities. -/
structure Tag where
  id : String
deriving DecidableEq, Repr

/-- Python `Tag.new(id)`: constructs a Tag with the given explicit identity. -/
def Tag.new (id : String) : Tag := ⟨id⟩

/-- Python `genid()` builds one closure over a fresh `itertools.count()`; each
call of the closure returns `str(next(counter))`.  Because
`field(default_factory=genid())` calls `genid` once at class-definition
time, a single such closure serves every default `Tag` construction in
the process.  One call is modelled as an explicit state step: from
counter value `n` it returns the decimal string and the advanced
counter. -/
def genid (counter : Nat) : String × Nat :=
  (Nat.repr counter, counter + 1)

/-- Python dict lookup `m[k]` on an insertion-ordered association list
(keys are unique, so first match is the match). -/
def dictGet {V : Type} (m : List (String × V)) (k : String) : Option V :=
  match m with
  | [] => none
  | (k', v) :: rest => if k' = k then some v else dictGet rest k

/-- Python dict update `m[k] = v` semantics: an existing key keeps its
position and gets the new value; a new key is appended at the end. -/
def dictSet {V : Type} (m : List (String × V)) (k : String) (v : V) :
    List (String × V) :=
  match m with
  | [] => [(k, v)]
  | (k', v') :: rest =>
      if k' = k then (k, v) :: rest else (k', v') :: dictSet rest k v

/-- Python `{**a, **b}`: start from a copy of `a` and write every entry
of `b` into it in order (right operand wins on collision). -/
def dictMerge {V : Type} (a b : List (String × V)) : List (String × V) :=
  b.foldl (fun acc p => dictSet acc p.1 p.2) a

/-- Python `Context`: frozen dataclass wrapping the service dict
(`_unsafe_map: dict[str, Any]`), modelled as an insertion-ordered
association list. -/
structure Context (V : Type) where
  store : List (String × V)
deriving DecidableEq, Repr

/-- Python `list(c._unsafe_map.keys())`: the identities available in `c`, in
insertion order. -/
def Context.keys {V : Type} (c : Context V) : List String :=
  c.store.map Prod.fst

/-- Python `RequiresContext[T, A] = Callable[[Context[T]], A]`, with possible
`KeyError`s made explicit in the result type. -/
def RequiresContext (V A : Type) : Type := Context V → Except Err A

/-- Python `Context()`: the default construction, an empty service dict. -/
def Context.empty {V : Type} : Context V := ⟨[]⟩

/-- Python `Context.run(self, f)`: `return f(self)`. -/
def Context.run {V A : Type} (c : Context V) (f : RequiresContext V A) :
    Except Err A :=
  f c

/-- Python `Context.join(self, other)`: `Context({**self._unsafe_map, **other._unsafe_map})`. -/
def Context.join {V : Type} (c other : Context V) : Context V :=
  ⟨dictMerge c.store other.store⟩

/-- Python `Context.extend(self, t, service)`: `Context({**self._unsafe_map, t._id: service})`. -/
def Context.extend {V : Type} (c : Context V) (t : Tag) (service : V) :
    Context V :=
  ⟨dictSet c.store t.id service⟩

/-- Python `of(service, t)` (pre-`defer` parameter order): `Context({t._id: service})`. -/
def of {V : Type} (service : V) (t : Tag) : Context V :=
  ⟨[(t.id, service)]⟩

/-- Python `from_pairs(*pairs)`: `Context({t._id: service for t, service in pairs})`
(a dict comprehension writes the pairs left to right). -/
def from_pairs {V : Type} (pairs : List (Tag × V)) : Context V :=
  ⟨pairs.foldl (fun acc p => dictSet acc p.1.id p.2) []⟩

/-- Python `defer` from defer.py, at one trailing argument: `defer(f)` turns
`f(a, b)` into the curried data-last form `f'(b)(a)`. -/
def defer2 {α β γ : Type} (f : α → β → γ) : β → α → γ :=
  fun b a => f a b

/-- Python `compose(op1, op2)` from pipe.py at two operators:
`reduce(lambda obs, op: op(obs), (op1, op2), x)` is `op2(op1(x))`. -/
def compose2 {α β γ : Type} (op1 : α → β) (op2 : β → γ) : α → γ :=
  fun x => op2 (op1 x)

/-- Python `pipe(value, fn1, fn2)` from pipe.py: `compose(fn1, fn2)(value)`. -/
def pipe2 {α β γ : Type} (value : α) (fn1 : α → β) (fn2 : β → γ) : γ :=
  compose2 fn1 fn2 value

/-- Python `pure(a)`: a computation ignoring the context and returning `a`. -/
def pure {V A : Type} (a : A) : RequiresContext V A :=
  fun _ => .ok a

/-- Python `map(ma, f)` (pre-`defer` parameter order): `lambda c: f(c.run(ma))`;
if running `ma` raises, the error propagates and `f` is not applied. -/
def map {V A B : Type} (ma : RequiresContext V A) (f : A → B) :
    RequiresContext V B :=
  fun c => (c.run ma).map f

/-- Python `bind(ma, f)` (pre-`defer` parameter order):
`lambda c: c.run(f(c.run(ma)))`. -/
def bind {V A B : Type} (ma : RequiresContext V A)
    (f : A → RequiresContext V B) : RequiresContext V B :=
  fun c => c.run ma >>= fun a => c.run (f a)

/-- Python `apply(mab, ma)` (pre-`defer` parameter order):
`a = c.run(ma); return c.run(mab)(a)` — `ma` is run first. -/
def apply {V A B : Type} (mab : RequiresContext V (A → B))
    (ma : RequiresContext V A) : RequiresContext V B :=
  fun c => c.run ma >>= fun a => (c.run mab).map fun fab => fab a

/-- Python `map` in its exported curried data-last form (`@defer`). -/
def mapD {V A B : Type} (f : A → B) :
    RequiresContext V A → RequiresContext V B :=
  defer2 map f

/-- Python `apply` in its exported curried data-last form (`@defer`). -/
def applyD {V A B : Type} (ma : RequiresContext V A) :
    RequiresContext V (A → B) → RequiresContext V B :=
  defer2 apply ma

/-- Python `then(ma, mb)` (pre-`defer` parameter order):
`pipe(mb, map(lambda _: lambda b: b), apply(ma))`. -/
def then' {V A B : Type} (ma : RequiresContext V A)
    (mb : RequiresContext V B) : RequiresContext V A :=
  pipe2 mb (mapD fun _ => fun b => b) (applyD ma)

/-- Python `then` in its exported curried form: `@defer` makes the call
`then(x)(y)` evaluate the body with `ma := y, mb := x`. -/
def thenD {V A B : Type} (ma : RequiresContext V A)
    (mb : RequiresContext V B) : RequiresContext V B :=
  defer2 then' ma mb

/-- Left-to-right evaluation of `[c.run(f(x)) for x in xs]`: the first
raised error aborts the whole comprehension with no partial result. -/
def runList {V A B : Type} (c : Context V) (f : A → RequiresContext V B) :
    List A → Except Err (List B)
  | [] => .ok []
  | x :: xs =>
      c.run (f x) >>= fun b => (runList c f xs).map fun bs => b :: bs

/-- Python `traverse(xs, f)` (pre-`defer` parameter order):
`lambda c: [c.run(f(x)) for x in xs]`. -/
def traverse {V A B : Type} (xs : List A) (f : A → RequiresContext V B) :
    RequiresContext V (List B) :=
  fun c => runList c f xs

/-- Python `ask(t)`: `lambda c: c._unsafe_map[t._id]` — a raw dict lookup that
raises a plain `KeyError(t._id)` when the identity is absent. -/
def ask {V : Type} (t : Tag) : RequiresContext V V :=
  fun c =>
    match dictGet c.store t.id with
    | some v => .ok v
    | none => .error (.keyError t.id)

/-- A generator body as driven by `requires`: it either finishes with a
return value, yields a `Tag` identity and continues with the value it
is sent, or raises a `KeyError` of its own during a resumption. -/
inductive Gen (V A : Type) where
  | done (a : A)
  | yieldTag (id : String) (k : V → Gen V A)
  | raiseKeyError (key : String)

/-- Python `use(tag)`: yields `tag` once and returns the value it is sent. -/
def use {V : Type} (t : Tag) : Gen V V :=
  .yieldTag t.id .done

/-- Python `yield from` sequencing of generator bodies. -/
def genBind {V A B : Type} : Gen V A → (A → Gen V B) → Gen V B
  | .done a, k => k a
  | .yieldTag id g, k => .yieldTag id fun v => genBind (g v) k
  | .raiseKeyError key, _ => .raiseKeyError key

/-- The `requires` driver loop: resume the generator, look each yielded
identity up in the context, send the value back in; on `StopIteration`
return its value; any `KeyError` — from the dict lookup or from the
generator body itself — is re-raised as the missing-service error
carrying the missing key and `list(c._unsafe_map.keys())`. -/
def drive {V A : Type} (c : Context V) : Gen V A → Except Err A
  | .done a => .ok a
  | .yieldTag id k =>
      match dictGet c.store id with
      | some v => drive c (k v)
      | none => .error (.missingService id c.keys)
  | .raiseKeyError key => .error (.missingService key c.keys)

/-- Python `requires(f)` applied to its arguments: the resulting
`RequiresContext` runs the driver over the generator body. -/
def requires {V A : Type} (g : Gen V A) : RequiresContext V A :=
  fun c => drive c g

/-- Python `of` in its exported curried form (`@defer`): `of(t)(service)`. -/
def ofD {V : Type} (t : Tag) (service : V) : Context V :=
  defer2 of t service

/-- The counter value after `n` calls of the closure made by `genid()`
(`itertools.count()` starts at 0; each call advances it by one). -/
def counterAfter : Nat → Nat
  | 0 => 0
  | n + 1 => (genid (counterAfter n)).2

/-- The identity string handed out by the `n`-th call of the
`default_factory` closure, i.e. the identity of the `n`-th
default-constructed `Tag` of the process. -/
def nthAutoId (n : Nat) : String :=
  (genid (counterAfter n)).1

/-- The `n`-th default-constructed `Tag` of the process. -/
def autoTag (n : Nat) : Tag :=
  ⟨nthAutoId n⟩

theorem dictGet_dictSet_self {V : Type} (m : List (String × V))
    (k : String) (v : V) : dictGet (dictSet m k v) k = some v := by
  induction m with
  | nil => simp [dictSet, dictGet]
  | cons p rest ih =>
      by_cases h : p.1 = k
      · simp [dictSet, h, dictGet]
      · simp [dictSet, h, dictGet, ih]

theorem counterAfter_eq (n : Nat) : counterAfter n = n := by
  induction n with
  | zero => rfl
  | succ n ih => simp [counterAfter, genid, ih]

/-- C1: monad associativity of `bind`: for every computation `ma`, all
functions `f` and `g` from values to computations, and every context
`c` (in particular every one providing the required services),
`run(c, bind(bind(ma, f), g)) = run(c, bind(ma, x -> bind(f(x), g)))`. -/
theorem bind_associativity {V A B D : Type} (ma : RequiresContext V A)
    (f : A → RequiresContext V B) (g : B → RequiresContext V D)
    (c : Context V) :
    c.run (bind (bind ma f) g) = c.run (bind ma fun x => bind (f x) g) := by
  cases hma : ma c <;> simp [bind, Context.run, hma]

/-- C7: functor composition in the curried data-last forms: for all
pure unary `f` and `g`, every computation `ma` and every context `c`,
`run(c, map(compose(f, g), ma)) = run(c, compose(map(f), map(g))(ma))`. -/
theorem map_composition_law {V A B D : Type} (f : A → B) (g : B → D)
    (ma : RequiresContext V A) (c : Context V) :
    c.run (mapD (compose2 f g) ma) =
      c.run (compose2 (mapD f) (mapD g) ma) := by
  cases hma : ma c <;>
    simp [mapD, defer2, map, compose2, Context.run, hma, Except.map]

/-- C5: `apply(mab, ma)` runs `ma` to obtain a value `a` and `mab` to
obtain a function `fab`, both against the same context, and returns
`fab a`; in particular `run(c, apply(pure(f), ask(tag))) = f(v)` when
`tag` is bound to `v` in `c` (see the witness). -/
theorem apply_correct {V A B : Type} (mab : RequiresContext V (A → B))
    (ma : RequiresContext V A) (c : Context V) (fab : A → B) (a : A)
    (hma : c.run ma = .ok a) (hmab : c.run mab = .ok fab) :
    c.run (apply mab ma) = .ok (fab a) := by
  simp [apply, Context.run] at hma hmab ⊢
  rw [hma, hmab]
  rfl

theorem apply_correct_witness :
    Context.run (V := Nat) (of 5 (Tag.new "t"))
      (apply (pure fun x => x + 1) (ask (Tag.new "t"))) = .ok 6 :=
  apply_correct (pure fun x => x + 1) (ask (Tag.new "t"))
    (of 5 (Tag.new "t")) (fun x => x + 1) 5 rfl rfl

/-- C2: `then(ma)(mb)` — the exported curried form of `then`, whose
`@defer` wrapper binds `ma` to the first call and `mb` to the second —
runs both `ma` and `mb` against the same context and returns `mb`'s
result, discarding `ma`'s result (whose failure, were `ma` to fail,
would still propagate: `ma` is really run). -/
theorem then_discards_first {V A B : Type} (ma : RequiresContext V A)
    (mb : RequiresContext V B) (c : Context V) (a : A) (b : B) (e : Err) :
    (c.run ma = .ok a → c.run mb = .ok b →
      c.run (thenD ma mb) = .ok b) ∧
    (c.run ma = .error e → c.run mb = .ok b →
      c.run (thenD ma mb) = .error e) := by
  constructor <;> intro hma hmb <;>
    simp [thenD, then', defer2, pipe2, compose2, mapD, applyD, apply,
      map, Context.run] at hma hmb ⊢ <;>
    rw [hmb, hma] <;> rfl

theorem then_discards_first_witness :
    (Context.run (V := Nat) (of 7 (Tag.new "t"))
      (thenD (ask (Tag.new "t")) (pure 42)) = .ok 42) ∧
    (Context.run (V := Nat) Context.empty
      (thenD (ask (Tag.new "t")) (pure 42)) =
        .error (.keyError "t")) :=
  ⟨(then_discards_first (ask (Tag.new "t")) (pure 42)
      (of 7 (Tag.new "t")) 7 42 (.keyError "t")).1 rfl rfl,
   (then_discards_first (ask (Tag.new "t")) (pure 42)
      Context.empty 7 42 (.keyError "t")).2 rfl rfl⟩

/-- C8: override semantics of `join` and `extend`: `of(t)(v1).join(of(t)(v2))`
resolves `t` to `v2` (right operand wins on identity collision) and
`of(t)(v1).extend(t, v2)` resolves `t` to `v2`; both return new
Contexts and neither mutates its inputs — the operand contexts still
resolve `t` to the values they were built with. -/
theorem join_extend_override {V : Type} (t : Tag) (v1 v2 : V) :
    ((ofD t v1).join (ofD t v2)).run (ask t) = .ok v2 ∧
    ((ofD t v1).extend t v2).run (ask t) = .ok v2 ∧
    (ofD t v1).run (ask t) = .ok v1 ∧
    (ofD t v2).run (ask t) = .ok v2 := by
  refine ⟨?_, ?_, ?_, ?_⟩ <;>
    simp [ofD, defer2, of, Context.join, Context.extend, dictMerge,
      dictSet, dictGet, ask, Context.run]

/-- C10: auto-generated Tag identities are the decimal strings of one
process-wide counter starting at 0: the `n`-th default-constructed Tag
has identity `Nat.repr n` (so `"0"`, `"1"`, `"2"`, ...); an explicitly
constructed `Tag.new` with that decimal string is equal to the
auto-generated Tag and aliases its service slot in every Context. -/
theorem auto_tag_ids {V : Type} (n : Nat) (c : Context V) (v : V) :
    nthAutoId n = Nat.repr n ∧
    Tag.new (Nat.repr n) = autoTag n ∧
    (c.extend (autoTag n) v).run (ask (Tag.new (Nat.repr n))) = .ok v := by
  have hid : nthAutoId n = Nat.repr n := by
    simp [nthAutoId, genid, counterAfter_eq]
  refine ⟨hid, ?_, ?_⟩
  · simp [Tag.new, autoTag, hid]
  · simp [Context.extend, Context.run, ask, Tag.new, autoTag, hid,
      dictGet_dictSet_self]

/-- C6: `traverse(xs, f)` applies `f` to each element in input order,
runs each resulting computation against the same shared context, and
returns the list of results preserving input order (the list of
`run(c, f(x))` for `x` in `xs`); it fails eagerly on the first element
whose computation fails, producing no partial result but exactly that
element's error. -/
theorem runList_all_ok {V A B : Type} (c : Context V)
    (f : A → RequiresContext V B) (rs : A → B) :
    ∀ xs : List A, (∀ y ∈ xs, f y c = .ok (rs y)) →
      runList c f xs = .ok (xs.map rs) := by
  intro xs
  induction xs with
  | nil => intro _; rfl
  | cons y ys ih =>
      intro hok
      have hy := hok y (by simp)
      have hys := ih fun z hz => hok z (by simp [hz])
      simp only [runList, Context.run]
      rw [hy, hys]
      rfl

theorem runList_first_error {V A B : Type} (c : Context V)
    (f : A → RequiresContext V B) (e : Err) (x : A) :
    ∀ pre post : List A, (∀ y ∈ pre, ∃ b, f y c = .ok b) →
      f x c = .error e →
      runList c f (pre ++ x :: post) = .error e := by
  intro pre
  induction pre with
  | nil =>
      intro post _ hx
      simp only [List.nil_append, runList, Context.run]
      rw [hx]
      rfl
  | cons p ps ih =>
      intro post hpre hx
      obtain ⟨b, hb⟩ := hpre p (by simp)
      have hrest : runList c f (ps.append (x :: post)) = .error e :=
        ih post (fun z hz => hpre z (by simp [hz])) hx
      simp only [List.cons_append, runList, Context.run]
      rw [hb, hrest]
      rfl

theorem traverse_order_and_failure {V A B : Type} (xs : List A)
    (f : A → RequiresContext V B) (c : Context V) (rs : A → B)
    (pre post : List A) (x : A) (e : Err) :
    ((∀ y ∈ xs, c.run (f y) = .ok (rs y)) →
      c.run (traverse xs f) = .ok (xs.map rs)) ∧
    (xs = pre ++ x :: post →
      (∀ y ∈ pre, ∃ b, c.run (f y) = .ok b) →
      c.run (f x) = .error e →
      c.run (traverse xs f) = .error e) := by
  constructor
  · intro hok
    exact runList_all_ok c f rs xs hok
  · intro hsplit hpre hx
    subst hsplit
    exact runList_first_error c f e x pre post hpre hx

theorem traverse_order_and_failure_witness :
    (Context.run (V := Nat) (of 10 (Tag.new "t"))
      (traverse [1, 2, 3] fun x => map (ask (Tag.new "t")) fun s => s * x) =
        .ok [10, 20, 30]) ∧
    (Context.run (V := Nat) (of 10 (Tag.new "t"))
      (traverse [1, 2, 3] fun x =>
        if x = 2 then ask (Tag.new "m") else pure x) =
        .error (.keyError "m")) :=
  by
  refine ⟨?_, ?_⟩
  · have h := (traverse_order_and_failure [1, 2, 3]
      (fun x => map (ask (Tag.new "t")) fun s => s * x)
      (of 10 (Tag.new "t")) (fun x => 10 * x) [] [] 0 (.keyError "m")).1
      (by intro y hy; fin_cases hy <;> rfl)
    simpa using h
  · exact (traverse_order_and_failure [1, 2, 3]
      (fun x => if x = 2 then ask (Tag.new "m") else pure x)
      (of 10 (Tag.new "t")) id [1] [3] 2 (.keyError "m")).2
      rfl (by intro y hy; fin_cases hy; exact ⟨1, rfl⟩) rfl

/-- C3 counterexample: running `ask` of an unbound tag against the
empty context raises the raw dict `KeyError`, which names the missing
identity but does NOT report the list of identities available in the
Context — so not every missing-resolution error carries both pieces of
information. -/
theorem ask_error_lacks_available :
    Context.run (V := Nat) Context.empty (ask (Tag.new "t")) =
      .error (.keyError "t") ∧
    Err.reportsAvailable (.keyError "t") = false :=
  ⟨rfl, rfl⟩

/-- C3 (amended): when the `requires` driver fails to resolve a yielded
tag it raises the missing-service error reporting both the missing
identity and the identities available in the Context; a direct run of
`ask` on an absent tag fails with a `KeyError` naming the missing
identity only (no available-identities list); in particular
`run(emptyContext, ask(tag))` fails naming the tag's identity (see the
witness). -/
theorem missing_service_reporting {V A : Type} (c : Context V) (t : Tag)
    (k : V → Gen V A) (hmiss : dictGet c.store t.id = none) :
    c.run (ask t) = .error (.keyError t.id) ∧
    Err.reportsAvailable (.keyError t.id) = false ∧
    c.run (requires (.yieldTag t.id k)) =
      .error (.missingService t.id c.keys) ∧
    Err.reportsAvailable (.missingService t.id c.keys) = true := by
  refine ⟨?_, rfl, ?_, rfl⟩
  · simp [ask, Context.run, hmiss]
  · simp [requires, drive, Context.run, hmiss]

theorem missing_service_reporting_witness :
    (Context.run (V := Nat) Context.empty (ask (Tag.new "t")) =
      .error (.keyError "t")) ∧
    (Context.run (V := Nat) (of 5 (Tag.new "a"))
      (requires (.yieldTag "t" Gen.done)) =
        .error (.missingService "t" ["a"])) :=
  ⟨(missing_service_reporting (A := Nat) Context.empty (Tag.new "t")
      Gen.done rfl).1,
   (missing_service_reporting (of 5 (Tag.new "a")) (Tag.new "t")
      Gen.done rfl).2.2.1⟩

/-- The spec's two-tag declared computation: request `t1`, then `t2`,
and return the two resolved services combined in declaration order
(written with `use` and `yield from` sequencing). -/
def twoTagProg {V : Type} (t1 t2 : Tag) (f : V → V → V) : Gen V V :=
  genBind (use t1) fun a => genBind (use t2) fun b => .done (f a b)

/-- C4: a `requires` computation using two tags in sequence: against a
context providing both tags it returns the value combined from both
resolved services in declaration order; against a context providing
the first tag but missing the second it fails with the missing-service
error naming the second tag (not the first), and only after the first
service has been resolved — the run equals the driver continuing from
the residual computation that already received the first value. -/
theorem requires_two_tags {V : Type} (t1 t2 : Tag) (f : V → V → V)
    (c : Context V) (v1 v2 : V) :
    (dictGet c.store t1.id = some v1 → dictGet c.store t2.id = some v2 →
      c.run (requires (twoTagProg t1 t2 f)) = .ok (f v1 v2)) ∧
    (dictGet c.store t1.id = some v1 → dictGet c.store t2.id = none →
      c.run (requires (twoTagProg t1 t2 f)) =
        .error (.missingService t2.id c.keys) ∧
      c.run (requires (twoTagProg t1 t2 f)) =
        drive c (genBind (use t2) fun b => .done (f v1 b))) := by
  constructor
  · intro h1 h2
    simp [requires, twoTagProg, genBind, use, drive, Context.run, h1, h2]
  · intro h1 h2
    constructor <;>
      simp [requires, twoTagProg, genBind, use, drive, Context.run, h1, h2]

theorem requires_two_tags_witness :
    (Context.run (V := Nat)
      (from_pairs [(Tag.new "a", 2), (Tag.new "b", 40)])
      (requires (twoTagProg (Tag.new "a") (Tag.new "b") fun x y => x + y)) =
        .ok 42) ∧
    (Context.run (V := Nat) (of 2 (Tag.new "a"))
      (requires (twoTagProg (Tag.new "a") (Tag.new "b") fun x y => x + y)) =
        .error (.missingService "b" ["a"])) :=
  ⟨(requires_two_tags (Tag.new "a") (Tag.new "b") (fun x y => x + y)
      (from_pairs [(Tag.new "a", 2), (Tag.new "b", 40)]) 2 40).1 rfl rfl,
   ((requires_two_tags (Tag.new "a") (Tag.new "b") (fun x y => x + y)
      (of 2 (Tag.new "a")) 2 0).2 rfl rfl).1⟩

/-- C9: if the generator body of a `requires`-wrapped computation
raises a `KeyError` of its own during a resumption, the driver catches
it and re-raises it as the missing-service error carrying that key and
the list of the context's identities — even though the tag the
computation actually requested was present in the context. -/
theorem requires_wraps_body_keyError {V A : Type} (c : Context V)
    (t : Tag) (v : V) (key : String)
    (hfound : dictGet c.store t.id = some v) :
    c.run (requires (A := A)
        (.yieldTag t.id fun _ => .raiseKeyError key)) =
      .error (.missingService key c.keys) := by
  simp [requires, drive, Context.run, hfound]

theorem requires_wraps_body_keyError_witness :
    Context.run (V := Nat) (of 5 (Tag.new "a"))
      (requires (A := Nat)
        (.yieldTag "a" fun _ => .raiseKeyError "oops")) =
      .error (.missingService "oops" ["a"]) :=
  requires_wraps_body_keyError (of 5 (Tag.new "a")) (Tag.new "a") 5
    "oops" rfl

end MonadicContext
